import Mathlib

/-!
Verification of the serial transport core of `pymodbus/client/serial.py`
(class `ModbusSerialClient`).

The embedding models:
* the timing computation of `__init__` (character time `t0`, receive poll
  interval, inter-byte timeout, silent interval) over `ℚ`, with Python's
  `round(x, 6)` modelled as round-half-to-even at six decimal places;
* the physical port as a `PortState`: the full byte stream the device will
  ever deliver (`data`), a cumulative arrival schedule (`sched t` = bytes
  arrived by poll tick `t`), the number of bytes already consumed (`pos`),
  the current poll tick (`now`), and the underlying `write` return value;
* `_wait_for_data` as a fuelled loop (`waitLoop`), one unit of fuel per
  poll permitted inside the connect timeout; the loop ticks the clock on
  every non-breaking iteration exactly as the Python loop sleeps;
* `connect` / `close` / `send` / `recv`, with the outcome of
  `serial.serial_for_url` passed in as an `Except ε PortState` so that an
  arbitrary exception type `ε` can be thrown by the backend.
-/

namespace PymodbusSerial

/-- Round-half-to-even on rationals, the rounding mode of Python `round`. -/
def roundHalfEven (q : ℚ) : ℤ :=
  let f := Int.floor q
  let frac := q - f
  if frac < 1/2 then f
  else if 1/2 < frac then f + 1
  else if f % 2 = 0 then f else f + 1

/-- Python `round(q, 6)`: round to six decimal places, ties to even. -/
def pyRound6 (q : ℚ) : ℚ := (roundHalfEven (q * 1000000) : ℚ) / 1000000

/-- The timing fields computed by `ModbusSerialClient.__init__`
(lines 212-226 of `serial.py`). -/
structure SerialTimings where
  t0 : ℚ
  recvInterval : ℚ
  interByteTimeout : ℚ
  silentInterval : ℚ
  deriving DecidableEq

/-- Embedding of the timing computation of `ModbusSerialClient.__init__`:
`_t0 = (1 + bytesize + stopbits) / baudrate`;
`_recv_interval = max(_t0 * 4, 0.001)`;
above 19200 baud the silent interval is `1.75/1000` and the class-level
default `inter_byte_timeout = 0` is kept, otherwise `inter_byte_timeout
= 1.5 * _t0` and `silent_interval = 3.5 * _t0`; finally
`silent_interval = round(silent_interval, 6)`. -/
def initTimings (baudrate bytesize stopbits : ℚ) : SerialTimings :=
  let t0 := (1 + bytesize + stopbits) / baudrate
  let recvInterval := max (t0 * 4) (1/1000)
  if 19200 < baudrate then
    { t0 := t0, recvInterval := recvInterval,
      interByteTimeout := 0,
      silentInterval := pyRound6 (175/100 / 1000) }
  else
    { t0 := t0, recvInterval := recvInterval,
      interByteTimeout := 15/10 * t0,
      silentInterval := pyRound6 (35/10 * t0) }

/-- State of an open serial port.  `data` is the complete byte stream the
device will ever deliver, `sched t` the cumulative number of those bytes
that have arrived by poll tick `t`, `pos` the number already consumed by
reads, `now` the current poll tick.  `writeReport request` is the value the
backend `write` returns (`none` models pyserial returning `None`), and
`written` logs the writes performed. -/
structure PortState where
  data : List Nat
  sched : Nat → Nat
  pos : Nat
  now : Nat
  writeReport : List Nat → Option Nat
  written : List (List Nat)
  interByteTimeout : ℚ

/-- `in_waiting` at poll tick `t`: bytes arrived by `t` but not yet read. -/
def inWaitingAt (s : PortState) (t : Nat) : Nat :=
  min (s.sched t) s.data.length - s.pos

/-- `self._in_waiting()` at the port's current tick. -/
def inWaiting (s : PortState) : Nat := inWaitingAt s s.now

/-- `self.socket.read(n)`: consume the next `n` pending bytes (fewer only if
the stream ends first, as pyserial does on read timeout). -/
def readBytes (s : PortState) (n : Nat) : List Nat × PortState :=
  ((s.data.drop s.pos).take n, { s with pos := s.pos + n })

/-- The poll loop of `ModbusSerialClient._wait_for_data` over an abstract
availability trace `a` (the successive `_in_waiting()` readings), started
at tick `t` with recorded count `size` and flag `md` (`more_data`), with
`fuel` polls permitted by the `timeout_connect` condition.  Returns the
final recorded count together with the tick at which the loop stopped.
Each non-breaking iteration sleeps one tick (`time.sleep(_recv_interval)`). -/
def waitLoop (a : Nat → Nat) : Nat → Nat → Bool → Nat → Nat × Nat
  | t, size, _, 0 => (size, t)
  | t, size, md, fuel + 1 =>
    let available := a t
    if md ∧ (available = 0 ∨ available = size) then (size, t)
    else if available ≠ 0 ∧ available ≠ size then
      waitLoop a (t + 1) available true fuel
    else
      waitLoop a (t + 1) size md fuel

/-- `self._wait_for_data()` on a port: run the poll loop from the port's
current tick with `size = 0`, `more_data = False`, and advance the port's
clock to where the loop stopped. -/
def waitForData (s : PortState) (fuel : Nat) : Nat × PortState :=
  let r := waitLoop (inWaitingAt s) s.now 0 false fuel
  (r.1, { s with now := r.2 })

/-- The connection-level exception of `send`/`recv` on a closed transport. -/
inductive ConnError where
  | connectionException
  deriving DecidableEq

/-- The transport state of a `ModbusSerialClient`: the optional open port
(`self.socket`), the number of polls the connect timeout allows
(`timeout_connect` divided into `_recv_interval` ticks), the timing profile
and `self.last_frame_end`. -/
structure Client where
  socket : Option PortState
  timeoutFuel : Nat
  timings : SerialTimings
  lastFrameEnd : Option ℚ

/-- `ModbusSerialClient.close()`: drop the handle, unconditionally
Disconnected; idempotent. -/
def close (c : Client) : Client := { c with socket := none }

/-- `ModbusSerialClient.connect()`.  `openOutcome` is the result of
`serial.serial_for_url(..., exclusive=True)`: a fresh port, or an exception
of arbitrary type `ε`.  If a socket is already present, return `True` at
once.  On success, apply the computed `inter_byte_timeout` to the port and
reset `last_frame_end`; on any exception, log, `close()`, and report the
socket's absence (`False`). -/
def connect {ε : Type} (c : Client) (openOutcome : Except ε PortState) :
    Bool × Client :=
  match c.socket with
  | some _ => (true, c)
  | none =>
    match openOutcome with
    | .ok port =>
        (true, { c with
                  socket := some { port with
                    interByteTimeout := c.timings.interByteTimeout },
                  lastFrameEnd := none })
    | .error _ => (false, close c)

/-- The `ModbusSerialClient.connected` property: it simply invokes
`self.connect()` and returns its result. -/
def connectedProp {ε : Type} (c : Client) (openOutcome : Except ε PortState) :
    Bool × Client :=
  connect c openOutcome

/-- The drain performed by `send` before writing: if `_in_waiting()` is
non-zero, read and discard that many bytes. -/
def drainBuffer (s : PortState) : PortState :=
  let w := inWaiting s
  if w ≠ 0 then (readBytes s w).2 else s

/-- `self.socket.write(request)` with pyserial's `None` return mapped to 0,
recording the write. -/
def writePort (s : PortState) (request : List Nat) : Nat × PortState :=
  ((s.writeReport request).getD 0, { s with written := s.written ++ [request] })

/-- `ModbusSerialClient.send(request)`: raise `ConnectionException` when no
socket; for a non-empty request drain the receive buffer, write, and return
the reported byte count (0 when the backend reports `None`); an empty
request returns 0 untouched. -/
def send (c : Client) (request : List Nat) : Except ConnError (Nat × Client) :=
  match c.socket with
  | none => .error ConnError.connectionException
  | some s =>
    if request = [] then .ok (0, c)
    else
      let s1 := drainBuffer s
      let r := writePort s1 request
      .ok (r.1, { c with socket := some r.2 })

/-- `ModbusSerialClient.recv(size)`: raise `ConnectionException` when no
socket; when `size is None`, let `_wait_for_data()` determine it; then, if
`size` exceeds `_in_waiting()`, run `_wait_for_data()` once more; finally
`read(size)`. -/
def recv (c : Client) (size : Option Nat) : Except ConnError (List Nat × Client) :=
  match c.socket with
  | none => .error ConnError.connectionException
  | some s0 =>
    let p1 : Nat × PortState :=
      match size with
      | none => waitForData s0 c.timeoutFuel
      | some n => (n, s0)
    let s2 := if inWaiting p1.2 < p1.1 then (waitForData p1.2 c.timeoutFuel).2
              else p1.2
    let r := readBytes s2 p1.1
    .ok (r.1, { c with socket := some r.2 })

/-! Concrete states used by the witnesses. -/

/-- The timing profile of the default parameters (19200 baud, 8 bits, 1 stop). -/
def sampleTimings : SerialTimings := initTimings 19200 8 1

/-- A port delivering the three bytes `[1, 2, 3]`, one per poll tick. -/
def samplePort : PortState :=
  { data := [1, 2, 3], sched := fun t => min t 3, pos := 0, now := 0,
    writeReport := fun r => some r.length, written := [],
    interByteTimeout := 0 }

/-- A port that never delivers a byte. -/
def silentPort : PortState :=
  { data := [], sched := fun _ => 0, pos := 0, now := 0,
    writeReport := fun _ => none, written := [], interByteTimeout := 0 }

/-- A client that has never connected (no socket). -/
def sampleClosedClient : Client :=
  { socket := none, timeoutFuel := 5, timings := sampleTimings,
    lastFrameEnd := none }

/-- A connected client holding `samplePort`, with six polls in its timeout. -/
def sampleOpenClient : Client :=
  { socket := some samplePort, timeoutFuel := 6, timings := sampleTimings,
    lastFrameEnd := none }

/-- A connected client on the silent port, with four polls in its timeout. -/
def silentClient : Client :=
  { socket := some silentPort, timeoutFuel := 4, timings := sampleTimings,
    lastFrameEnd := none }

/-! Basic unfolding lemmas for the poll loop. -/

/-- One unfolding step of the `_wait_for_data` poll loop. -/
theorem waitLoop_succ (a : Nat → Nat) (t size : Nat) (md : Bool) (fuel : Nat) :
    waitLoop a t size md (fuel + 1) =
      if md ∧ (a t = 0 ∨ a t = size) then (size, t)
      else if a t ≠ 0 ∧ a t ≠ size then waitLoop a (t + 1) (a t) true fuel
      else waitLoop a (t + 1) size md fuel := rfl

/-- With no fuel left (timeout check fails), the loop returns at once. -/
theorem waitLoop_zero_fuel (a : Nat → Nat) (t size : Nat) (md : Bool) :
    waitLoop a t size md 0 = (size, t) := rfl

/-- C2: the timing profile computed by `__init__` satisfies
`t0 = (1 + bytesize + stopbits) / baudrate`,
`recv_poll_interval = max(4 * t0, 0.001)`; above 19200 baud
`inter_byte_timeout = 0` and `silent_interval = round(0.00175, 6)`,
otherwise `inter_byte_timeout = 1.5 * t0` and
`silent_interval = round(3.5 * t0, 6)`; the computation is a total
deterministic function. -/
theorem C2_timing_profile (b bs sb : ℚ) :
    (initTimings b bs sb).t0 = (1 + bs + sb) / b ∧
    (initTimings b bs sb).recvInterval = max (4 * ((1 + bs + sb) / b)) (1/1000) ∧
    (19200 < b →
      (initTimings b bs sb).interByteTimeout = 0 ∧
      (initTimings b bs sb).silentInterval = pyRound6 (175/100000)) ∧
    (¬ 19200 < b →
      (initTimings b bs sb).interByteTimeout = 3/2 * ((1 + bs + sb) / b) ∧
      (initTimings b bs sb).silentInterval = pyRound6 (7/2 * ((1 + bs + sb) / b))) := by
  by_cases hb : (19200 : ℚ) < b
  · simp only [initTimings]
    rw [if_pos hb]
    refine ⟨rfl, ?_, fun _ => ⟨rfl, by norm_num⟩, fun h => absurd hb h⟩
    rw [mul_comm ((1 + bs + sb) / b) 4]
  · simp only [initTimings]
    rw [if_neg hb]
    refine ⟨rfl, ?_, fun h => absurd h hb, fun _ => ⟨by norm_num, by norm_num⟩⟩
    rw [mul_comm ((1 + bs + sb) / b) 4]

/-- Witness for C2 at the spec's two sample baud rates. -/
theorem C2_timing_profile_witness :
    (initTimings 19200 8 1).interByteTimeout = 3/2 * ((1 + 8 + 1) / 19200) ∧
    (initTimings 115200 8 1).interByteTimeout = 0 :=
  ⟨((C2_timing_profile 19200 8 1).2.2.2 (by norm_num)).1,
   ((C2_timing_profile 115200 8 1).2.2.1 (by norm_num)).1⟩

/-- C8: `connect()` on an already-Connected client returns `True` at once,
does not look at the open outcome (no reopen), and leaves the client
unchanged. -/
theorem C8_connect_idempotent {ε : Type} (c : Client) (s : PortState)
    (h : c.socket = some s) (o : Except ε PortState) :
    connect c o = (true, c) := by
  cases c
  simp only at h
  subst h
  rfl

/-- Witness for C8 on a concrete connected client. -/
theorem C8_connect_idempotent_witness :
    connect sampleOpenClient (Except.ok silentPort : Except Unit PortState) =
      (true, sampleOpenClient) :=
  C8_connect_idempotent sampleOpenClient samplePort rfl (Except.ok silentPort)

/-- C7: whatever the exception type `ε`, a failure of the backend open is
caught; `connect()` returns `False` and the client is (still) Disconnected
and otherwise unchanged. -/
theorem C7_connect_catches_all {ε : Type} (c : Client) (e : ε)
    (h : c.socket = none) :
    connect c (Except.error e) = (false, c) := by
  cases c
  simp only at h
  subst h
  rfl

/-- Witness for C7 with a `Unit`-typed exception on a concrete client. -/
theorem C7_connect_catches_all_witness :
    connect sampleClosedClient (Except.error ()) = (false, sampleClosedClient) :=
  C7_connect_catches_all sampleClosedClient () rfl

/-- C9: reading `connected` invokes `connect()` and returns its result; in
particular on a Disconnected client it attempts the open and transitions to
Connected exactly as a direct `connect()` call would. -/
theorem C9_connected_invokes_connect {ε : Type} (c : Client)
    (o : Except ε PortState) (p : PortState) (h : c.socket = none) :
    connectedProp c o = connect c o ∧
    connectedProp c (Except.ok p : Except ε PortState) =
      (true, { c with
        socket := some { p with interByteTimeout := c.timings.interByteTimeout },
        lastFrameEnd := none }) := by
  refine ⟨rfl, ?_⟩
  cases c
  simp only at h
  subst h
  rfl

/-- Witness for C9 on a concrete Disconnected client. -/
theorem C9_connected_invokes_connect_witness :
    connectedProp sampleClosedClient (Except.error () : Except Unit PortState) =
      connect sampleClosedClient (Except.error ()) ∧
    connectedProp sampleClosedClient (Except.ok samplePort : Except Unit PortState) =
      (true, { sampleClosedClient with
        socket := some { samplePort with
          interByteTimeout := sampleClosedClient.timings.interByteTimeout },
        lastFrameEnd := none }) :=
  C9_connected_invokes_connect sampleClosedClient (Except.error ()) samplePort rfl

/-- C6: `send` and `recv` on a client that has never connected, or on any
client after `close()`, raise `ConnectionException` without touching the
device. -/
theorem C6_disconnected_raises (c c0 : Client) (h : c.socket = none)
    (req : List Nat) (sz : Option Nat) :
    send c req = Except.error ConnError.connectionException ∧
    recv c sz = Except.error ConnError.connectionException ∧
    send (close c0) req = Except.error ConnError.connectionException ∧
    recv (close c0) sz = Except.error ConnError.connectionException := by
  cases c
  simp only at h
  subst h
  exact ⟨rfl, rfl, rfl, rfl⟩

/-- Witness for C6 on concrete clients. -/
theorem C6_disconnected_raises_witness :
    send sampleClosedClient [1] = Except.error ConnError.connectionException ∧
    recv sampleClosedClient none = Except.error ConnError.connectionException ∧
    send (close sampleOpenClient) [1] = Except.error ConnError.connectionException ∧
    recv (close sampleOpenClient) none = Except.error ConnError.connectionException :=
  C6_disconnected_raises sampleClosedClient sampleOpenClient rfl [1] none

/-- The write-report function is unchanged by the pre-send drain. -/
theorem drainBuffer_writeReport (s : PortState) :
    (drainBuffer s).writeReport = s.writeReport := by
  simp only [drainBuffer]
  split <;> rfl

/-- After the pre-send drain the receive buffer is empty. -/
theorem inWaiting_drainBuffer (s : PortState) : inWaiting (drainBuffer s) = 0 := by
  by_cases hne : inWaiting s ≠ 0
  · have h1 : drainBuffer s = (readBytes s (inWaiting s)).2 := by
      simp only [drainBuffer]
      rw [if_pos hne]
    rw [h1]
    simp only [readBytes, inWaiting, inWaitingAt]
    generalize min (s.sched s.now) s.data.length = m
    omega
  · have h1 : drainBuffer s = s := by
      simp only [drainBuffer]
      rw [if_neg hne]
    rw [h1]
    simpa using hne

/-- C5: on a Connected client, a non-empty `send` first drains the receive
buffer (the buffer is empty before the write happens), then writes the
payload and returns the byte count the backend write reports (0 when it
reports `None`); an empty `send` performs no drain and no write and
returns 0. -/
theorem C5_send_drains_then_writes (c : Client) (s : PortState)
    (h : c.socket = some s) (req : List Nat) (hreq : req ≠ []) :
    inWaiting (drainBuffer s) = 0 ∧
    send c req = Except.ok ((s.writeReport req).getD 0,
      { c with socket := some { drainBuffer s with
          written := (drainBuffer s).written ++ [req] } }) ∧
    send c [] = Except.ok (0, c) := by
  refine ⟨inWaiting_drainBuffer s, ?_, by simp [send, h]⟩
  simp only [send, h, if_neg hreq, writePort, drainBuffer_writeReport]

/-- Witness for C5 sending `[5]` on a concrete connected client. -/
theorem C5_send_drains_then_writes_witness :
    inWaiting (drainBuffer samplePort) = 0 ∧
    send sampleOpenClient [5] = Except.ok ((samplePort.writeReport [5]).getD 0,
      { sampleOpenClient with socket := some { drainBuffer samplePort with
          written := (drainBuffer samplePort).written ++ [[5]] } }) ∧
    send sampleOpenClient [] = Except.ok (0, sampleOpenClient) :=
  C5_send_drains_then_writes sampleOpenClient samplePort rfl [5] (by decide)

/-- The poll loop stops no later than its fuel (one poll per tick). -/
theorem waitLoop_stop_le (a : Nat → Nat) :
    ∀ (fuel t size : Nat) (md : Bool), (waitLoop a t size md fuel).2 ≤ t + fuel := by
  intro fuel
  induction fuel with
  | zero =>
    intro t size md
    exact Nat.le_add_right t 0
  | succ fuel ih =>
    intro t size md
    rw [waitLoop_succ]
    split
    · exact Nat.le_add_right t (fuel + 1)
    · split
      · exact le_trans (ih (t + 1) (a t) true) (by omega)
      · exact le_trans (ih (t + 1) size md) (by omega)

/-- The count the poll loop returns is its initial one or a non-zero
buffered count observed at some polled tick. -/
theorem waitLoop_result_observed (a : Nat → Nat) :
    ∀ (fuel t size : Nat) (md : Bool),
      (waitLoop a t size md fuel).1 = size ∨
      ∃ j, t ≤ j ∧ j < t + fuel ∧ (waitLoop a t size md fuel).1 = a j ∧ a j ≠ 0 := by
  intro fuel
  induction fuel with
  | zero =>
    intro t size md
    exact Or.inl rfl
  | succ fuel ih =>
    intro t size md
    rw [waitLoop_succ]
    split
    · exact Or.inl rfl
    · split
      · rename_i hrec
        rcases ih (t + 1) (a t) true with h1 | ⟨j, hj1, hj2, hj3, hj4⟩
        · exact Or.inr ⟨t, le_rfl, by omega, h1, hrec.1⟩
        · exact Or.inr ⟨j, by omega, by omega, hj3, hj4⟩
      · rcases ih (t + 1) size md with h1 | ⟨j, hj1, hj2, hj3, hj4⟩
        · exact Or.inl h1
        · exact Or.inr ⟨j, by omega, by omega, hj3, hj4⟩

/-- C3: the `_wait_for_data` loop always terminates within the connect
timeout: when the timeout check fails it returns at once with the count
accumulated so far, the loop never polls past its fuel budget, the count it
returns is 0 or a buffered count it actually observed, and a pending `recv`
always returns control to the caller (a connection error or a result). -/
theorem C3_wait_terminates :
    (∀ (a : Nat → Nat) (t size : Nat) (md : Bool),
        waitLoop a t size md 0 = (size, t)) ∧
    (∀ (a : Nat → Nat) (fuel t size : Nat) (md : Bool),
        (waitLoop a t size md fuel).2 ≤ t + fuel) ∧
    (∀ (a : Nat → Nat) (fuel t : Nat),
        (waitLoop a t 0 false fuel).1 = 0 ∨
        ∃ j, t ≤ j ∧ j < t + fuel ∧ (waitLoop a t 0 false fuel).1 = a j ∧ a j ≠ 0) ∧
    (∀ c : Client, recv c none = Except.error ConnError.connectionException ∨
        ∃ r, recv c none = Except.ok r) := by
  refine ⟨fun a t size md => rfl,
    fun a fuel t size md => waitLoop_stop_le a fuel t size md,
    fun a fuel t => waitLoop_result_observed a fuel t 0 false,
    fun c => ?_⟩
  cases c with
  | mk sock fuel tim lfe =>
    cases sock with
    | none => exact Or.inl rfl
    | some s => exact Or.inr ⟨_, rfl⟩

/-- If no byte ever arrives, every poll fails to set `more_data` and the
loop consumes its whole fuel, returning count 0. -/
theorem waitLoop_all_zero (a : Nat → Nat) (ha : ∀ j, a j = 0) :
    ∀ (fuel t : Nat), waitLoop a t 0 false fuel = (0, t + fuel) := by
  intro fuel
  induction fuel with
  | zero =>
    intro t
    rfl
  | succ fuel ih =>
    intro t
    have h2 : ¬(a t ≠ 0 ∧ a t ≠ 0) := by simp [ha t]
    rw [waitLoop_succ, if_neg (by simp), if_neg h2, ih (t + 1)]
    congr 1
    omega

/-- C10: on a Connected client whose line never delivers a byte,
`recv(None)` returns the empty byte string — no error is raised — after the
poll budget of the connect timeout is exhausted. -/
theorem C10_silent_line (c : Client) (s : PortState) (h : c.socket = some s)
    (hs : ∀ t, s.sched t = 0) :
    recv c none =
      Except.ok ([], { c with socket := some ({ s with now := s.now + c.timeoutFuel }) }) := by
  have ha : ∀ j, inWaitingAt s j = 0 := fun j => by simp [inWaitingAt, hs j]
  have hw : waitLoop (inWaitingAt s) s.now 0 false c.timeoutFuel =
      (0, s.now + c.timeoutFuel) := waitLoop_all_zero _ ha _ _
  simp only [recv, h, waitForData, hw, readBytes, inWaiting]
  simp [ha]

/-- Witness for C10 on a concrete silent client. -/
theorem C10_silent_line_witness :
    recv silentClient none =
      Except.ok ([], { silentClient with socket := some ({ silentPort with now := silentPort.now + silentClient.timeoutFuel }) }) :=
  C10_silent_line silentClient silentPort rfl (fun _ => rfl)

/-- C4: the two modes of `recv`: with `size = None` it runs the detector
and then reads exactly the count the detector reported; with a given
`size = n` exceeding the currently buffered count, it first runs the same
detector and then reads exactly `n` bytes, advancing the read position by
exactly `n` so any remaining buffered bytes are left for the next call;
`read` yields exactly `n` bytes whenever the stream still holds them. -/
theorem C4_recv_two_modes (c : Client) (s : PortState) (h : c.socket = some s)
    (n : Nat) (hn : inWaiting s < n) :
    (∀ sz s1, waitForData s c.timeoutFuel = (sz, s1) →
      recv c none =
        (let s2 := if inWaiting s1 < sz then (waitForData s1 c.timeoutFuel).2 else s1
         Except.ok ((s2.data.drop s2.pos).take sz,
           { c with socket := some { s2 with pos := s2.pos + sz } }))) ∧
    (recv c (some n) =
      (let s2 := (waitForData s c.timeoutFuel).2
       Except.ok ((s2.data.drop s2.pos).take n,
         { c with socket := some { s2 with pos := s2.pos + n } }))) ∧
    (∀ (st : PortState) (m : Nat), st.pos + m ≤ st.data.length →
      (readBytes st m).1.length = m ∧ (readBytes st m).2.pos = st.pos + m) := by
  refine ⟨?_, ?_, ?_⟩
  · intro sz s1 hw
    simp only [recv, h, hw, readBytes]
  · simp only [recv, h, if_pos hn, readBytes]
  · intro st m hm
    refine ⟨?_, rfl⟩
    simp only [readBytes, List.length_take, List.length_drop]
    omega

/-- Witness for C4 on a concrete connected client with one byte requested
while none is buffered yet. -/
theorem C4_recv_two_modes_witness :
    (recv sampleOpenClient (some 1) =
      (let s2 := (waitForData samplePort sampleOpenClient.timeoutFuel).2
       Except.ok ((s2.data.drop s2.pos).take 1,
         { sampleOpenClient with socket := some { s2 with pos := s2.pos + 1 } }))) ∧
    (readBytes samplePort 2).1.length = 2 ∧
    (readBytes samplePort 2).2.pos = samplePort.pos + 2 :=
  ⟨(C4_recv_two_modes sampleOpenClient samplePort rfl 1 (by decide)).2.1,
   (C4_recv_two_modes sampleOpenClient samplePort rfl 1 (by decide)).2.2
      samplePort 2 (by decide)⟩

/-- If the buffered count never shrinks, grows strictly at every poll while
below `N`, and reaches `N`, the poll loop stops at the first repeated
reading, which strictness forces to be `N`: it returns `N`, at a tick where
the buffered count is `N`.  The invariant carried through the loop: either
`more_data` is set and `size` is the non-zero count recorded at the
previous tick, or `more_data` is unset, `size = 0` and nothing has been
seen yet. -/
theorem waitLoop_stabilizes (a : Nat → Nat) (N T : Nat) (hN : 0 < N)
    (hbound : ∀ t, a t ≤ N)
    (hmono : ∀ t, a t ≤ a (t + 1))
    (hstrict : ∀ t, a t < N → a t < a (t + 1))
    (hT : a T = N) :
    ∀ (fuel t size : Nat) (md : Bool), T + 2 ≤ t + fuel → t ≤ T + 1 →
      ((md = true ∧ 0 < size ∧ 1 ≤ t ∧ size = a (t - 1)) ∨
       (md = false ∧ size = 0 ∧ (t = 0 ∨ a (t - 1) = 0))) →
      (waitLoop a t size md fuel).1 = N ∧ a (waitLoop a t size md fuel).2 = N := by
  intro fuel
  induction fuel with
  | zero =>
    intro t size md hf ht _
    exfalso
    omega
  | succ fuel ih =>
    intro t size md hf ht hinv
    rw [waitLoop_succ]
    split
    · rename_i hbr
      rcases hinv with ⟨hmd, hsz, ht1, hrec⟩ | ⟨hmd, _, _⟩
      · have hle : a (t - 1) ≤ a t := by
          have h' := hmono (t - 1)
          rwa [Nat.sub_add_cancel ht1] at h'
        rcases hbr.2 with h0 | hsame
        · exfalso
          omega
        · have hsN : size = N := by
            by_contra hne
            have hlt : a (t - 1) < N := by
              have h'' := hbound (t - 1)
              omega
            have h' := hstrict (t - 1) hlt
            rw [Nat.sub_add_cancel ht1] at h'
            omega
          refine ⟨hsN, ?_⟩
          show a t = N
          rw [hsame]
          exact hsN
      · rw [hmd] at hbr
        simp at hbr
    · split
      · rename_i hbr hrec
        have htT : t ≤ T := by
          rcases hinv with ⟨hmd, hsz, ht1, hsz'⟩ | ⟨hmd, hsz, hz⟩
          · by_contra hgt
            have ht' : t = T + 1 := by omega
            have h1 : a T ≤ a (T + 1) := hmono T
            have h2 : a (T + 1) ≤ N := hbound (T + 1)
            have h3 : a (T + 1) = N := by omega
            have h4 : size = a T := by
              rw [ht'] at hsz'
              simpa using hsz'
            exact hrec.2 (by rw [ht', h3, h4, hT])
          · rcases hz with h0 | h0
            · omega
            · by_contra hgt
              have ht' : t = T + 1 := by omega
              rw [ht'] at h0
              simp at h0
              omega
        exact ih (t + 1) (a t) true (by omega) (by omega)
          (Or.inl ⟨rfl, Nat.pos_of_ne_zero hrec.1, by omega, by simp⟩)
      · rename_i hbr hrec
        rcases hinv with ⟨hmd, hsz, ht1, hsz'⟩ | ⟨hmd, hsz, hz⟩
        · rw [hmd] at hbr
          simp at hbr
          exact absurd hbr hrec
        · subst hmd
          subst hsz
          have h0 : a t = 0 := by
            by_contra hne
            exact hrec ⟨hne, hne⟩
          have htT : t ≤ T := by
            rcases hz with hz0 | hz0
            · omega
            · by_contra hgt
              have ht' : t = T + 1 := by omega
              rw [ht'] at hz0
              simp at hz0
              omega
          exact ih (t + 1) 0 false (by omega) (by omega)
            (Or.inr ⟨rfl, rfl, Or.inr (by simpa using h0)⟩)

/-- C1: the frame-boundary detector of `_wait_for_data`: the loop stops,
returning the recorded count, at the first poll where `more_data` holds and
the current count is zero or equal to the last recorded count; while the
count keeps changing it records the new count and continues; consequently,
against a source whose buffered count strictly grows up to its `N` bytes
and then goes silent, `recv(None)` returns exactly those `N` bytes and does
not return early while the count is still growing. -/
theorem C1_frame_boundary (c : Client) (s : PortState) (N T : Nat)
    (hN : 0 < N) (hpos : s.pos = 0) (hnow : s.now = 0)
    (hlen : s.data.length = N)
    (hbound : ∀ t, s.sched t ≤ N)
    (hmono : ∀ t, s.sched t ≤ s.sched (t + 1))
    (hstrict : ∀ t, s.sched t < N → s.sched t < s.sched (t + 1))
    (hT : s.sched T = N)
    (hfuel : T + 2 ≤ c.timeoutFuel)
    (h : c.socket = some s) :
    (∀ (a : Nat → Nat) (t size : Nat) (md : Bool) (fuel : Nat),
        md = true → (a t = 0 ∨ a t = size) →
        waitLoop a t size md (fuel + 1) = (size, t)) ∧
    (∀ (a : Nat → Nat) (t size : Nat) (md : Bool) (fuel : Nat),
        a t ≠ 0 → a t ≠ size →
        waitLoop a t size md (fuel + 1) = waitLoop a (t + 1) (a t) true fuel) ∧
    Except.map Prod.fst (recv c none) = Except.ok s.data := by
  refine ⟨?_, ?_, ?_⟩
  · intro a t size md fuel hmd hor
    rw [waitLoop_succ, if_pos ⟨hmd, hor⟩]
  · intro a t size md fuel h0 hs
    rw [waitLoop_succ, if_neg (fun hcon => hcon.2.elim h0 hs), if_pos ⟨h0, hs⟩]
  · have ha : inWaitingAt s = s.sched := by
      funext t
      simp [inWaitingAt, hpos, hlen, Nat.min_eq_left (hbound t)]
    obtain ⟨hr1, hr2⟩ := waitLoop_stabilizes s.sched N T hN hbound hmono hstrict hT
      c.timeoutFuel 0 0 false (by omega) (by omega) (Or.inr ⟨rfl, rfl, Or.inl rfl⟩)
    have hwfd : waitForData s c.timeoutFuel =
        (N, { s with now := (waitLoop s.sched 0 0 false c.timeoutFuel).2 }) := by
      simp only [waitForData, ha, hnow, hr1]
    have hiw : inWaiting ({ s with now := (waitLoop s.sched 0 0 false c.timeoutFuel).2 }) = N := by
      simp [inWaiting, inWaitingAt, hpos, hlen, hr2]
    simp only [recv, h, hwfd, hiw, lt_irrefl, if_false, readBytes, Except.map]
    simp only [hpos, List.drop_zero]
    rw [← hlen, List.take_length]

/-- Witness for C1: the three-byte source `samplePort` (one byte per poll,
then silence) makes `recv(None)` return exactly its bytes `[1, 2, 3]`;
the loop equations instantiated at concrete states. -/
theorem C1_frame_boundary_witness :
    waitLoop (fun u => min u 3) 4 3 true 1 = (3, 4) ∧
    waitLoop (fun u => min u 3) 1 0 false 4 = waitLoop (fun u => min u 3) 2 1 true 3 ∧
    Except.map Prod.fst (recv sampleOpenClient none) = Except.ok samplePort.data := by
  have h := C1_frame_boundary sampleOpenClient samplePort 3 3 (by decide) rfl rfl rfl
    (fun t => by show min t 3 ≤ 3; omega)
    (fun t => by show min t 3 ≤ min (t + 1) 3; omega)
    (fun t ht => by
      have ht' : min t 3 < 3 := ht
      show min t 3 < min (t + 1) 3
      omega)
    rfl (by decide) rfl
  exact ⟨h.1 _ 4 3 true 0 rfl (Or.inr rfl),
    h.2.1 _ 1 0 false 3 (by decide) (by decide), h.2.2⟩

end PymodbusSerial
